import Mathlib

/-!
# Verification of the geo-mapper drawing/editing core

Shallow embedding of the map-annotation application's core logic:

* `src/utils/geoUtils.ts` — haversine distance (`calculateDistance`);
* `src/components/MapBoard.tsx` — drawing-session event handlers
  (`handleClick`, `handleDblClick`, the mode-change effect), the object
  store operations (`handleObjectUpdate`, `deleteObject`,
  `handleNewObject`) and the radius numeric edit
  (`RadiusInput.handleChange`);
* `src/App.tsx` — `handleSetDrawingMode`, `handleDeleteLayer`;
* `src/utils/fileImporter.ts` — `saveProjectToFile` /
  `loadProjectFromFile`, modelled at the level of parsed JSON values.

JavaScript numbers are modelled as exact reals (`ℝ`), except where the
distinction NaN / ±Infinity is itself behaviourally relevant
(`parseFloat`), where an explicit `JSNum` type over `ℚ` is used.
-/

namespace GeoMapper

/-! ## JavaScript numbers and `parseFloat` (for the radius edit) -/

/-- A JavaScript number as far as `parseFloat` and the radius-edit guard
can observe it: NaN, the two infinities, or an exact (rational) value.
Exact rationals stand in for IEEE doubles; no rounding is modelled. -/
inductive JSNum where
  | nan
  | inf
  | negInf
  | val (q : ℚ)
deriving DecidableEq, Repr

/-- Numeric value of a list of decimal digit characters. -/
def digitsToNat (ds : List Char) : ℕ :=
  ds.foldl (fun acc c => 10 * acc + (c.toNat - 48)) 0

/-- Parse an ECMAScript ExponentPart (`e`/`E`, optional sign, digits) at the
head of the input; `none` when the input does not start with a complete,
well-formed exponent part (in which case `parseFloat` ignores it). -/
def parseExponent : List Char → Option ℤ
  | c :: rest =>
      if c = 'e' ∨ c = 'E' then
        match rest with
        | '+' :: t =>
            let ds := t.takeWhile Char.isDigit
            if ds = [] then Option.none else some (digitsToNat ds : ℤ)
        | '-' :: t =>
            let ds := t.takeWhile Char.isDigit
            if ds = [] then Option.none else some (-(digitsToNat ds : ℤ))
        | t =>
            let ds := t.takeWhile Char.isDigit
            if ds = [] then Option.none else some (digitsToNat ds : ℤ)
      else Option.none
  | [] => Option.none

/-- Parse an ECMAScript StrUnsignedDecimalLiteral at the head of the input:
the literal `Infinity`, or decimal digits with optional fraction and
exponent.  `neg` is the already-consumed sign.  Returns NaN when no prefix
of the input is a valid literal, exactly as `parseFloat` does. -/
def parseUnsigned (neg : Bool) (cs : List Char) : JSNum :=
  if cs.take 8 = [ 'I', 'n', 'f', 'i', 'n', 'i', 't', 'y'] then
    (if neg then JSNum.negInf else JSNum.inf)
  else
    let intDs := cs.takeWhile Char.isDigit
    let r1 := cs.drop intDs.length
    let fracDs :=
      match r1 with
      | '.' :: t => t.takeWhile Char.isDigit
      | _ => []
    let r2 :=
      match r1 with
      | '.' :: t => t.drop (t.takeWhile Char.isDigit).length
      | _ => r1
    if intDs = [] ∧ fracDs = [] then JSNum.nan
    else
      let mag : ℚ := (digitsToNat intDs : ℚ) + (digitsToNat fracDs : ℚ) / (10 ^ fracDs.length)
      let m : ℚ := if neg then -mag else mag
      match parseExponent r2 with
      | some e => JSNum.val (m * 10 ^ e)
      | Option.none => JSNum.val m

/-- Modelled from the ECMAScript builtin `parseFloat` that
`RadiusInput.handleChange` (MapBoard.tsx) calls: skip leading whitespace,
read an optional sign, then the longest valid decimal literal prefix
(including the literal `Infinity`); NaN when there is none.  Values are
exact rationals, so float rounding and overflow are not modelled. -/
def parseFloat (s : String) : JSNum :=
  match s.data.dropWhile Char.isWhitespace with
  | '+' :: rest => parseUnsigned false rest
  | '-' :: rest => parseUnsigned true rest
  | cs => parseUnsigned false cs

/-- `x` is NaN (the `isNaN(val)` test in `RadiusInput.handleChange`). -/
def JSNum.isNaN : JSNum → Bool
  | .nan => true
  | _ => false

/-- The JavaScript comparison `val > 0` on a `JSNum` (false for NaN). -/
def JSNum.isPos : JSNum → Bool
  | .nan => false
  | .inf => true
  | .negInf => false
  | .val q => decide (0 < q)

namespace RadiusInput

/-- `RadiusInput.handleChange` (MapBoard.tsx lines 239-246): parse the
input string; invoke `onChange` with the parsed value exactly when it is
not NaN and is `> 0`.  `some v` = `onChange(v)` was called, `none` = the
edit was ignored. -/
def handleChange (newVal : String) : Option JSNum :=
  let val := parseFloat newVal
  if val.isNaN = false ∧ val.isPos = true then some val else Option.none

/-- The circle radius after the edit: the committed value when
`handleChange` fires `onChange`, the prior radius otherwise. -/
def radiusAfterChange (prior : JSNum) (newVal : String) : JSNum :=
  match handleChange newVal with
  | some v => v
  | Option.none => prior

end RadiusInput

/-! ## GeoMath (src/utils/geoUtils.ts), over exact reals -/

noncomputable section

/-- Earth radius in meters (geoUtils.ts line 5). -/
def R : ℝ := 6371000

/-- `toRad` (geoUtils.ts line 7): degrees to radians. -/
def toRad (value : ℝ) : ℝ := value * Real.pi / 180

/-- JavaScript `Math.atan2 y x` on exact reals (no NaN or signed zeros):
the angle of the point `(x, y)`, in `(-π, π]`. -/
def atan2 (y x : ℝ) : ℝ :=
  if 0 < x then Real.arctan (y / x)
  else if x < 0 then
    (if 0 ≤ y then Real.arctan (y / x) + Real.pi else Real.arctan (y / x) - Real.pi)
  else if 0 < y then Real.pi / 2
  else if y < 0 then -(Real.pi / 2)
  else 0

/-- `calculateDistance` (geoUtils.ts lines 9-17): haversine great-circle
distance in meters between two (lat, lng) pairs in degrees. -/
def calculateDistance (lat1 lon1 lat2 lon2 : ℝ) : ℝ :=
  let dLat := toRad (lat2 - lat1)
  let dLon := toRad (lon2 - lon1)
  let a := Real.sin (dLat / 2) * Real.sin (dLat / 2) +
    Real.cos (toRad lat1) * Real.cos (toRad lat2) * Real.sin (dLon / 2) * Real.sin (dLon / 2)
  let c := 2 * atan2 (Real.sqrt a) (Real.sqrt (1 - a))
  R * c

/-! ## Data model (src/types.ts), as the JavaScript runtime holds it -/

/-- Leaflet's `LatLngLiteral`: a coordinate pair in degrees. -/
structure LatLng where
  lat : ℝ
  lng : ℝ

/-- The `type` discriminant of a `MapObject`. -/
inductive ShapeType where
  | point
  | circle
  | polyline
  | polygon
deriving DecidableEq, Repr

/-- A `MapObject` as the JavaScript runtime holds it: the common fields of
`BaseMapObject` plus the shape-specific fields, a field being `none` when
the key is absent from the underlying object (a `MapPoint` carries only
`position`, a `MapCircle` only `center` and `radius`, and so on). -/
structure MapObject where
  id : String
  layerId : String
  type : ShapeType
  title : String
  description : String
  position : Option LatLng := Option.none
  center : Option LatLng := Option.none
  radius : Option ℝ := Option.none
  positions : Option (List LatLng) := Option.none

/-- `LayerStyle` (types.ts). -/
structure LayerStyle where
  borderColor : String
  borderWidth : ℝ
  fillColor : String
  fillOpacity : ℝ

/-- `Layer` (types.ts). -/
structure Layer where
  id : String
  name : String
  visible : Bool
  style : LayerStyle

/-- `DrawingMode` (types.ts line 3).  The spec's "select" mode is the
string `'none'`. -/
inductive DrawingMode where
  | none
  | point
  | circle
  | polyline
  | polygon
  | ruler
deriving DecidableEq, Repr

/-! ## Drawing state machine (App.tsx + MapBoard.tsx `MapEvents`) -/

/-- The state the drawing-session claims are about: App.tsx's
`drawingMode`, `rulerPoints`, `selectedObjectId` and `objects` state
together with `MapEvents`' local `tempPoints`, `circleCenter` and
`dragPoint` state (MapBoard.tsx lines 662-664). -/
structure MapState where
  drawingMode : DrawingMode
  tempPoints : List LatLng
  circleCenter : Option LatLng
  dragPoint : Option LatLng
  rulerPoints : List LatLng
  selectedObjectId : Option String
  objects : List MapObject

/-- The `useEffect` on `drawingMode` in `MapEvents` (MapBoard.tsx lines
666-675): after the mode has changed, clear the circle preview unless the
new mode is `circle`, and clear the click accumulator unless the new mode
is `polyline` or `polygon`. -/
def clearTempEffect (s : MapState) : MapState :=
  let s1 :=
    if s.drawingMode ≠ DrawingMode.circle then
      { s with circleCenter := Option.none, dragPoint := Option.none }
    else s
  if s.drawingMode ≠ DrawingMode.polyline ∧ s.drawingMode ≠ DrawingMode.polygon then
    { s1 with tempPoints := [] }
  else s1

/-- `handleSetDrawingMode` (App.tsx lines 203-211) composed with the
`MapEvents` effect above, which runs once the new mode is rendered: set
the mode, clear the ruler points unless entering `ruler`, clear the
selection unless entering `none`. -/
def handleSetDrawingMode (mode : DrawingMode) (s : MapState) : MapState :=
  let s1 := { s with drawingMode := mode }
  let s2 := if mode ≠ DrawingMode.ruler then { s1 with rulerPoints := [] } else s1
  let s3 := if mode ≠ DrawingMode.none then { s2 with selectedObjectId := Option.none } else s2
  clearTempEffect s3

/-- `handleNewObject` (MapBoard.tsx lines 939-944): optimistic append of a
finished record to the object collection (the `onNewObject` persistence
callback is reported separately by the handlers below). -/
def handleNewObject (obj : MapObject) (s : MapState) : MapState :=
  { s with objects := s.objects ++ [obj] }

/-- The `newPoint` record literal of `handleClick` (MapBoard.tsx 689-696). -/
def newPointObj (id layerId : String) (p : LatLng) : MapObject :=
  { id := id, layerId := layerId, type := ShapeType.point, title := "New Point",
    description := "No description", position := some p }

/-- The `newCircle` record literal of `handleClick` (MapBoard.tsx 711-719). -/
def newCircleObj (id layerId : String) (center : LatLng) (radius : ℝ) : MapObject :=
  { id := id, layerId := layerId, type := ShapeType.circle, title := "New Circle",
    description := "No description", center := some center, radius := some radius }

/-- The `newPolyline` record literal of `handleDblClick` (MapBoard.tsx 769-776). -/
def newPolylineObj (id layerId : String) (positions : List LatLng) : MapObject :=
  { id := id, layerId := layerId, type := ShapeType.polyline, title := "New Line",
    description := "No description", positions := some positions }

/-- The `newPolygon` record literal of `handleDblClick` (MapBoard.tsx 783-790). -/
def newPolygonObj (id layerId : String) (positions : List LatLng) : MapObject :=
  { id := id, layerId := layerId, type := ShapeType.polygon, title := "New Polygon",
    description := "No description", positions := some positions }

/-- `handleClick` (MapBoard.tsx lines 679-731).  `fresh` stands for the
`crypto.randomUUID()` result.  Returns the state after the click together
with the list of records handed to `onNewObject` (each is also appended
optimistically by `handleNewObject`); `setDrawingMode` is App.tsx's
`handleSetDrawingMode` (App.tsx line 277 wires it so). -/
def handleClick (fresh activeLayerId : String) (p : LatLng) (s : MapState) :
    MapState × List MapObject :=
  match s.drawingMode with
  | DrawingMode.none => ({ s with selectedObjectId := Option.none }, [])
  | DrawingMode.point =>
      let newPoint := newPointObj fresh activeLayerId p
      (handleSetDrawingMode DrawingMode.none (handleNewObject newPoint s), [newPoint])
  | DrawingMode.circle =>
      match s.circleCenter with
      | Option.none => ({ s with circleCenter := some p, dragPoint := some p }, [])
      | some c =>
          let radius := calculateDistance c.lat c.lng p.lat p.lng
          if 0 < radius then
            let newCircle := newCircleObj fresh activeLayerId c radius
            (handleSetDrawingMode DrawingMode.none
              { handleNewObject newCircle s with
                  circleCenter := Option.none, dragPoint := Option.none },
             [newCircle])
          else
            (handleSetDrawingMode DrawingMode.none
              { s with circleCenter := Option.none, dragPoint := Option.none }, [])
  | DrawingMode.polyline => ({ s with tempPoints := s.tempPoints ++ [p] }, [])
  | DrawingMode.polygon => ({ s with tempPoints := s.tempPoints ++ [p] }, [])
  | DrawingMode.ruler => ({ s with rulerPoints := s.rulerPoints ++ [p] }, [])

/-- `handleDblClick` (MapBoard.tsx lines 765-798).  The handler receives
the double-click's mouse event but never reads its coordinate, so `p` is
an unused argument, kept to state that fact.  Polyline finalizes when the
accumulator holds more than 1 point, polygon when it holds more than 2;
either way the accumulator clears and the mode is set to `none`. -/
def handleDblClick (fresh activeLayerId : String) (p : LatLng) (s : MapState) :
    MapState × List MapObject :=
  match s.drawingMode with
  | DrawingMode.polyline =>
      if 1 < s.tempPoints.length then
        let newPolyline := newPolylineObj fresh activeLayerId s.tempPoints
        (handleSetDrawingMode DrawingMode.none
           { handleNewObject newPolyline s with tempPoints := [] }, [newPolyline])
      else
        (handleSetDrawingMode DrawingMode.none { s with tempPoints := [] }, [])
  | DrawingMode.polygon =>
      if 2 < s.tempPoints.length then
        let newPolygon := newPolygonObj fresh activeLayerId s.tempPoints
        (handleSetDrawingMode DrawingMode.none
           { handleNewObject newPolygon s with tempPoints := [] }, [newPolygon])
      else
        (handleSetDrawingMode DrawingMode.none { s with tempPoints := [] }, [])
  | DrawingMode.ruler => (handleSetDrawingMode DrawingMode.none s, [])
  | _ => (s, [])

/-! ## Object store operations (MapBoard.tsx) -/

/-- A `Partial<MapObject>`: the value of every key the update supplies,
`none` for keys it leaves out. -/
structure ObjectPatch where
  id : Option String := Option.none
  layerId : Option String := Option.none
  type : Option ShapeType := Option.none
  title : Option String := Option.none
  description : Option String := Option.none
  position : Option LatLng := Option.none
  center : Option LatLng := Option.none
  radius : Option ℝ := Option.none
  positions : Option (List LatLng) := Option.none

/-- The JavaScript spread `{ ...target, ...updates }`: each key the patch
supplies replaces the target's, every other key keeps the target's value. -/
def spread (o : MapObject) (u : ObjectPatch) : MapObject :=
  { id := u.id.getD o.id
    layerId := u.layerId.getD o.layerId
    type := u.type.getD o.type
    title := u.title.getD o.title
    description := u.description.getD o.description
    position := match u.position with | some v => some v | Option.none => o.position
    center := match u.center with | some v => some v | Option.none => o.center
    radius := match u.radius with | some v => some v | Option.none => o.radius
    positions := match u.positions with | some v => some v | Option.none => o.positions }

/-- `handleObjectUpdate` (MapBoard.tsx lines 912-923): look the target up
by id; when absent, return with no state change and no persistence call;
otherwise merge the supplied fields over the target, replace every record
with that id, and hand the merged record to the `onObjectUpdate`
persistence callback (returned as the second component). -/
def handleObjectUpdate (i : String) (updates : ObjectPatch) (s : MapState) :
    MapState × List MapObject :=
  match s.objects.find? (fun o => o.id == i) with
  | Option.none => (s, [])
  | some target =>
      let updatedObject := spread target updates
      ({ s with objects := s.objects.map (fun o => if o.id == i then updatedObject else o) },
       [updatedObject])

/-- `deleteObject` (MapBoard.tsx lines 929-937): drop the record from the
collection, clear the selection when it pointed at the deleted id, and
invoke the `onObjectDelete` persistence callback with the id (returned as
the second component). -/
def deleteObject (i : String) (s : MapState) : MapState × List String :=
  let s1 := { s with objects := s.objects.filter (fun o => o.id != i) }
  let s2 :=
    if s1.selectedObjectId = some i then { s1 with selectedObjectId := Option.none } else s1
  (s2, [i])

/-! ## Layer deletion (App.tsx `handleDeleteLayer`) -/

/-- The App.tsx state `handleDeleteLayer` touches. -/
structure AppState where
  layers : List Layer
  activeLayerId : String
  objects : List MapObject

/-- A call to the Firestore persistence collaborator. -/
inductive PersistCall where
  | saveLayers (layers : List Layer)
  | deleteObject (id : String)

/-- `handleDeleteLayer` (App.tsx lines 115-135): a no-op when one or fewer
layers exist; otherwise drop the layer, drop every object whose `layerId`
matches, repoint `activeLayerId` at the first remaining layer when it
pointed at the deleted one, and (when a user is signed in) persist the new
layer list and delete each dropped object.  The `none` result models the
TypeError JavaScript raises reading `newLayers[0].id` when the filtered
layer list is empty, reachable only with duplicate layer ids. -/
def handleDeleteLayer (user : Bool) (i : String) (s : AppState) :
    Option (AppState × List PersistCall) :=
  if s.layers.length ≤ 1 then some (s, [])
  else
    let newLayers := s.layers.filter (fun l => l.id != i)
    let objectsToDelete := s.objects.filter (fun o => o.layerId == i)
    let objectsToKeep := s.objects.filter (fun o => o.layerId != i)
    let act? :=
      if s.activeLayerId = i then newLayers.head?.map Layer.id else some s.activeLayerId
    act?.map fun a =>
      ({ layers := newLayers, activeLayerId := a, objects := objectsToKeep },
       if user then
         PersistCall.saveLayers newLayers ::
           objectsToDelete.map (fun o => PersistCall.deleteObject o.id)
       else [])

/-! ## Project save/load (src/utils/fileImporter.ts), at the level of
parsed JSON values.  `JValue` is a JavaScript value in the JSON-safe
fragment, plus `undef` (the result of reading an absent property, never
produced by `JSON.parse`).  `JSON.parse ∘ JSON.stringify` is the identity
on this fragment, so serialization is modelled as the identity on
`JValue` and the save/load pair is composed directly. -/

/-- A parsed JSON value (JavaScript numbers as exact reals). -/
inductive JValue where
  | undef
  | null
  | bool (b : Bool)
  | num (x : ℝ)
  | str (s : String)
  | arr (xs : List JValue)
  | obj (fields : List (String × JValue))

/-- First binding of a key in an object's field list (our encoders never
produce duplicate keys, where `JSON.parse` would keep the last). -/
def lookupField : List (String × JValue) → String → JValue
  | [], _ => JValue.undef
  | (k, v) :: rest, key => if k = key then v else lookupField rest key

/-- JavaScript property access `j[key]` for the values `JSON.parse` can
produce other than `null`: a lookup on objects, `undefined` on
everything else. -/
def getField : JValue → String → JValue
  | JValue.obj fields, key => lookupField fields key
  | _, _ => JValue.undef

/-- JavaScript truthiness of a `JValue`. -/
def truthy : JValue → Bool
  | JValue.undef => false
  | JValue.null => false
  | JValue.bool b => b
  | JValue.num x => decide (x ≠ 0)
  | JValue.str s => decide (s ≠ "")
  | JValue.arr _ => true
  | JValue.obj _ => true

/-- `Array.isArray`. -/
def isArray : JValue → Bool
  | JValue.arr _ => true
  | _ => false

/-- Encoding of a coordinate pair as `JSON.stringify` lays it out. -/
def encodeLatLng (p : LatLng) : JValue :=
  JValue.obj [("lat", JValue.num p.lat), ("lng", JValue.num p.lng)]

/-- The `type` string of a record. -/
def ShapeType.toStr : ShapeType → String
  | ShapeType.point => "point"
  | ShapeType.circle => "circle"
  | ShapeType.polyline => "polyline"
  | ShapeType.polygon => "polygon"

/-- A key-value pair when the field is present, nothing when the key is
absent (absent keys are what `JSON.stringify` skips). -/
def optField (key : String) : Option JValue → List (String × JValue)
  | some v => [(key, v)]
  | Option.none => []

/-- A `MapObject` as `JSON.stringify` serializes it. -/
def encodeObject (o : MapObject) : JValue :=
  JValue.obj
    ([("id", JValue.str o.id), ("layerId", JValue.str o.layerId),
      ("type", JValue.str o.type.toStr), ("title", JValue.str o.title),
      ("description", JValue.str o.description)]
     ++ optField "position" (o.position.map encodeLatLng)
     ++ optField "center" (o.center.map encodeLatLng)
     ++ optField "radius" (o.radius.map JValue.num)
     ++ optField "positions" ((o.positions.map fun ps => JValue.arr (ps.map encodeLatLng))))

/-- A `LayerStyle` as `JSON.stringify` serializes it. -/
def encodeStyle (st : LayerStyle) : JValue :=
  JValue.obj [("borderColor", JValue.str st.borderColor),
              ("borderWidth", JValue.num st.borderWidth),
              ("fillColor", JValue.str st.fillColor),
              ("fillOpacity", JValue.num st.fillOpacity)]

/-- A `Layer` as `JSON.stringify` serializes it. -/
def encodeLayer (l : Layer) : JValue :=
  JValue.obj [("id", JValue.str l.id), ("name", JValue.str l.name),
              ("visible", JValue.bool l.visible), ("style", encodeStyle l.style)]

/-- `saveProjectToFile` (fileImporter.ts lines 294-312): the `ProjectData`
document it serializes, with `Date.now()` supplied as `timestamp`. -/
def saveProjectToFile (timestamp : ℝ) (layers : List Layer) (objects : List MapObject) :
    JValue :=
  JValue.obj [("version", JValue.str "1.0"), ("timestamp", JValue.num timestamp),
              ("layers", JValue.arr (layers.map encodeLayer)),
              ("objects", JValue.arr (objects.map encodeObject))]

/-- The body of `loadProjectFromFile` (fileImporter.ts lines 314-331)
applied to a successfully parsed JSON document: throw
"Invalid project file format" when `json.layers` or `json.objects` is
falsy, otherwise resolve with exactly those two raw values.  On `null`
the property read itself throws a TypeError, which the surrounding
`catch` also turns into a rejection.  The function builds its result from
its argument alone — no state is read or written. -/
def loadProjectChecked (json : JValue) : Except String (JValue × JValue) :=
  match json with
  | JValue.null => Except.error "TypeError"
  | j =>
      if truthy (getField j "layers") = false ∨ truthy (getField j "objects") = false then
        Except.error "Invalid project file format"
      else
        Except.ok (getField j "layers", getField j "objects")

/-- Partial inverse of `encodeLatLng`. -/
def decodeLatLng : JValue → Option LatLng
  | JValue.obj fields =>
      match lookupField fields "lat", lookupField fields "lng" with
      | JValue.num a, JValue.num b => some { lat := a, lng := b }
      | _, _ => Option.none
  | _ => Option.none

/-- Partial inverse of `ShapeType.toStr`. -/
def decodeShapeType : String → Option ShapeType
  | "point" => some ShapeType.point
  | "circle" => some ShapeType.circle
  | "polyline" => some ShapeType.polyline
  | "polygon" => some ShapeType.polygon
  | _ => Option.none

/-- `v` is the absent-property marker. -/
def isUndef : JValue → Bool
  | JValue.undef => true
  | _ => false

/-- Read an optional field: absent key decodes to `none`, a present key
must decode with `f`. -/
def decodeOpt (f : JValue → Option α) (v : JValue) : Option (Option α) :=
  if isUndef v then some Option.none else (f v).map some

/-- Decode a list of encoded coordinates. -/
def decodeLatLngList : List JValue → Option (List LatLng)
  | [] => some []
  | v :: rest => (decodeLatLng v).bind fun q => (decodeLatLngList rest).map fun t => q :: t

/-- Partial inverse of `encodeObject`. -/
def decodeObject (j : JValue) : Option MapObject :=
  match getField j "id", getField j "layerId", getField j "type",
      getField j "title", getField j "description" with
  | JValue.str i, JValue.str li, JValue.str ty, JValue.str t, JValue.str d =>
      (decodeShapeType ty).bind fun st =>
      (decodeOpt decodeLatLng (getField j "position")).bind fun pos =>
      (decodeOpt decodeLatLng (getField j "center")).bind fun cen =>
      (decodeOpt (fun v => match v with | JValue.num x => some x | _ => Option.none)
          (getField j "radius")).bind fun rad =>
      (decodeOpt (fun v => match v with
          | JValue.arr xs => decodeLatLngList xs
          | _ => Option.none) (getField j "positions")).map fun poss =>
        { id := i, layerId := li, type := st, title := t, description := d,
          position := pos, center := cen, radius := rad, positions := poss }
  | _, _, _, _, _ => Option.none

/-- Partial inverse of `encodeStyle`. -/
def decodeStyle (j : JValue) : Option LayerStyle :=
  match getField j "borderColor", getField j "borderWidth",
      getField j "fillColor", getField j "fillOpacity" with
  | JValue.str bc, JValue.num bw, JValue.str fc, JValue.num fo =>
      some { borderColor := bc, borderWidth := bw, fillColor := fc, fillOpacity := fo }
  | _, _, _, _ => Option.none

/-- Partial inverse of `encodeLayer`. -/
def decodeLayer (j : JValue) : Option Layer :=
  match getField j "id", getField j "name", getField j "visible",
      decodeStyle (getField j "style") with
  | JValue.str i, JValue.str n, JValue.bool v, some st =>
      some { id := i, name := n, visible := v, style := st }
  | _, _, _, _ => Option.none

/-! ## Auxiliary predicates and concrete states -/

/-- No in-progress accumulator or preview state of drawing mode `m` is
present in `s`: the circle center/preview for `circle`, the click
accumulator for `polyline`/`polygon`, the measurement list for `ruler`
(`point` and `none` keep no in-progress state). -/
def modeStateCleared (m : DrawingMode) (s : MapState) : Prop :=
  match m with
  | DrawingMode.circle => s.circleCenter = Option.none ∧ s.dragPoint = Option.none
  | DrawingMode.polyline => s.tempPoints = []
  | DrawingMode.polygon => s.tempPoints = []
  | DrawingMode.ruler => s.rulerPoints = []
  | _ => True

/-- Polyline mode with a single accumulated click. -/
def singlePointDraftState : MapState :=
  { drawingMode := DrawingMode.polyline, tempPoints := [{ lat := 0, lng := 0 }],
    circleCenter := Option.none, dragPoint := Option.none, rulerPoints := [],
    selectedObjectId := Option.none, objects := [] }

/-- Circle mode with the center placed at the origin. -/
def circleDraftState : MapState :=
  { drawingMode := DrawingMode.circle, tempPoints := [],
    circleCenter := some { lat := 0, lng := 0 }, dragPoint := some { lat := 0, lng := 0 },
    rulerPoints := [], selectedObjectId := Option.none, objects := [] }

/-- Polyline mode with two accumulated clicks. -/
def polylineDraftState : MapState :=
  { drawingMode := DrawingMode.polyline,
    tempPoints := [{ lat := 0, lng := 0 }, { lat := 1, lng := 0 }],
    circleCenter := Option.none, dragPoint := Option.none, rulerPoints := [],
    selectedObjectId := Option.none, objects := [] }

/-- Select mode with one point object that is currently selected. -/
def selectedPointState : MapState :=
  { drawingMode := DrawingMode.none, tempPoints := [], circleCenter := Option.none,
    dragPoint := Option.none, rulerPoints := [], selectedObjectId := some "a",
    objects := [newPointObj "a" "1" { lat := 0, lng := 0 }] }

/-- A parsed document whose `layers` and `objects` keys hold the number 1
(truthy, but not arrays). -/
def badProject : JValue :=
  JValue.obj [("layers", JValue.num 1), ("objects", JValue.num 1)]

end

/-! # Theorems -/

/-- Helper: the haversine distance from a point to itself is zero. -/
theorem calculateDistance_self (lat lon : ℝ) : calculateDistance lat lon lat lon = 0 := by
  have h0 : toRad 0 = 0 := by simp [toRad]
  simp only [calculateDistance, sub_self, h0]
  norm_num [atan2, Real.arctan_zero]

/-- Helper: the haversine distance is symmetric in its two endpoints. -/
theorem calculateDistance_comm (lat1 lon1 lat2 lon2 : ℝ) :
    calculateDistance lat1 lon1 lat2 lon2 = calculateDistance lat2 lon2 lat1 lon1 := by
  have key : ∀ x y : ℝ, Real.sin (toRad (x - y) / 2) = -Real.sin (toRad (y - x) / 2) := by
    intro x y
    have h : toRad (x - y) / 2 = -(toRad (y - x) / 2) := by unfold toRad; ring
    rw [h, Real.sin_neg]
  simp only [calculateDistance]
  have ha : Real.sin (toRad (lat2 - lat1) / 2) * Real.sin (toRad (lat2 - lat1) / 2) +
        Real.cos (toRad lat1) * Real.cos (toRad lat2) *
          Real.sin (toRad (lon2 - lon1) / 2) * Real.sin (toRad (lon2 - lon1) / 2)
      = Real.sin (toRad (lat1 - lat2) / 2) * Real.sin (toRad (lat1 - lat2) / 2) +
        Real.cos (toRad lat2) * Real.cos (toRad lat1) *
          Real.sin (toRad (lon1 - lon2) / 2) * Real.sin (toRad (lon1 - lon2) / 2) := by
    rw [key lat2 lat1, key lon2 lon1]; ring
  rw [ha]

/-- C7: `calculateDistance` is symmetric, `d(a,b) = d(b,a)`, and the
distance from any coordinate pair to itself is `0`. -/
theorem calculateDistance_symm_and_self (lat1 lon1 lat2 lon2 : ℝ) :
    calculateDistance lat1 lon1 lat2 lon2 = calculateDistance lat2 lon2 lat1 lon1 ∧
    calculateDistance lat1 lon1 lat1 lon1 = 0 :=
  ⟨calculateDistance_comm lat1 lon1 lat2 lon2, calculateDistance_self lat1 lon1⟩

/-- C1 (amended): switching the drawing mode discards all in-progress
accumulator/preview state of the mode being left, except that the shared
click accumulator is carried over when switching between the `polyline`
and `polygon` modes. -/
theorem mode_switch_discards_left_state (s : MapState) (m : DrawingMode)
    (h1 : m ≠ s.drawingMode)
    (h2 : ¬(s.drawingMode = DrawingMode.polyline ∧ m = DrawingMode.polygon))
    (h3 : ¬(s.drawingMode = DrawingMode.polygon ∧ m = DrawingMode.polyline)) :
    modeStateCleared s.drawingMode (handleSetDrawingMode m s) := by
  rcases s with ⟨dm, tps, cc, dp, rp, sel, objs⟩
  cases dm <;> cases m <;>
    simp_all [modeStateCleared, handleSetDrawingMode, clearTempEffect]

/-- C1 counterexample: switching from `polyline` (with one accumulated
click) to the different mode `polygon` does not clear the point
accumulator, so partially-constructed shape state from the left mode is
still present while the new mode is active. -/
theorem mode_switch_polyline_to_polygon_keeps_accumulator :
    DrawingMode.polygon ≠ singlePointDraftState.drawingMode ∧
    (handleSetDrawingMode DrawingMode.polygon singlePointDraftState).tempPoints ≠ [] := by
  constructor
  · intro h; cases h
  · simp [handleSetDrawingMode, clearTempEffect, singlePointDraftState]

/-- C1 witness: leaving `circle` mode for `none` clears the circle
center/preview state. -/
theorem mode_switch_discards_left_state_witness :
    DrawingMode.none ≠ circleDraftState.drawingMode ∧
    modeStateCleared circleDraftState.drawingMode
      (handleSetDrawingMode DrawingMode.none circleDraftState) :=
  ⟨(fun h => nomatch h),
   mode_switch_discards_left_state circleDraftState DrawingMode.none
     (fun h => nomatch h) (fun h => nomatch h.1) (fun h => nomatch h.1)⟩

/-- C2: in polyline (resp. polygon) mode, the finalizing double-click
creates exactly one record holding the accumulated points — and only when
at least 2 (resp. 3) points were accumulated, silently creating nothing
below the threshold; the result is independent of the double-click's own
coordinate (it is never appended); in every case the accumulator clears
and the mode reverts to `none` (the spec's "select"). -/
theorem dblclick_finalizes_accumulated_shape
    (fresh activeLayerId : String) (p : LatLng) (s : MapState)
    (h : s.drawingMode = DrawingMode.polyline ∨ s.drawingMode = DrawingMode.polygon) :
    ((s.drawingMode = DrawingMode.polyline →
        (handleDblClick fresh activeLayerId p s).2 =
          if 2 ≤ s.tempPoints.length then [newPolylineObj fresh activeLayerId s.tempPoints]
          else []) ∧
     (s.drawingMode = DrawingMode.polygon →
        (handleDblClick fresh activeLayerId p s).2 =
          if 3 ≤ s.tempPoints.length then [newPolygonObj fresh activeLayerId s.tempPoints]
          else []) ∧
     (∀ q : LatLng,
        handleDblClick fresh activeLayerId q s = handleDblClick fresh activeLayerId p s) ∧
     (handleDblClick fresh activeLayerId p s).1.tempPoints = [] ∧
     (handleDblClick fresh activeLayerId p s).1.drawingMode = DrawingMode.none) := by
  obtain ⟨dm, tps, cc, dp, rp, sel, objs⟩ := s
  rcases h with h | h <;> cases h <;>
    refine ⟨?_, ?_, fun q => rfl, ?_, ?_⟩ <;>
    first
      | (intro hx; exact absurd hx (by decide))
      | (intro _
         simp only [handleDblClick]
         split_ifs with h1 h2 <;> first | rfl | omega)
      | (simp only [handleDblClick]
         split_ifs <;>
           simp [handleSetDrawingMode, clearTempEffect, handleNewObject])

/-- C2 witness: finalizing a two-point polyline draft emits one polyline
record with exactly those two points, clears the accumulator and reverts
the mode. -/
theorem dblclick_finalizes_accumulated_shape_witness :
    ((polylineDraftState.drawingMode = DrawingMode.polyline →
        (handleDblClick "u1" "1" { lat := 5, lng := 5 } polylineDraftState).2 =
          if 2 ≤ polylineDraftState.tempPoints.length then
            [newPolylineObj "u1" "1" polylineDraftState.tempPoints]
          else []) ∧
     (polylineDraftState.drawingMode = DrawingMode.polygon →
        (handleDblClick "u1" "1" { lat := 5, lng := 5 } polylineDraftState).2 =
          if 3 ≤ polylineDraftState.tempPoints.length then
            [newPolygonObj "u1" "1" polylineDraftState.tempPoints]
          else []) ∧
     (∀ q : LatLng,
        handleDblClick "u1" "1" q polylineDraftState =
          handleDblClick "u1" "1" { lat := 5, lng := 5 } polylineDraftState) ∧
     (handleDblClick "u1" "1" { lat := 5, lng := 5 } polylineDraftState).1.tempPoints = [] ∧
     (handleDblClick "u1" "1" { lat := 5, lng := 5 } polylineDraftState).1.drawingMode =
       DrawingMode.none) :=
  dblclick_finalizes_accumulated_shape "u1" "1" { lat := 5, lng := 5 } polylineDraftState
    (Or.inl rfl)

/-- C3: in circle mode with a center already placed, the second click
computes the haversine radius from the center to the click point and
creates exactly one circle record with that center and radius when the
radius is positive; a click at the exact center coordinate (radius 0)
creates nothing; in both cases the circle-drawing state resets and the
mode reverts to `none` (the spec's "select"). -/
theorem second_click_finalizes_circle
    (fresh activeLayerId : String) (p c : LatLng) (s : MapState)
    (hm : s.drawingMode = DrawingMode.circle) (hc : s.circleCenter = some c) :
    ((0 < calculateDistance c.lat c.lng p.lat p.lng →
        (handleClick fresh activeLayerId p s).2 =
          [newCircleObj fresh activeLayerId c (calculateDistance c.lat c.lng p.lat p.lng)]) ∧
     (¬0 < calculateDistance c.lat c.lng p.lat p.lng →
        (handleClick fresh activeLayerId p s).2 = []) ∧
     (p = c → (handleClick fresh activeLayerId p s).2 = []) ∧
     (handleClick fresh activeLayerId p s).1.circleCenter = Option.none ∧
     (handleClick fresh activeLayerId p s).1.dragPoint = Option.none ∧
     (handleClick fresh activeLayerId p s).1.drawingMode = DrawingMode.none) := by
  rcases s with ⟨dm, tps, cc, dp, rp, sel, objs⟩
  cases hm
  cases hc
  have hself : calculateDistance c.lat c.lng c.lat c.lng = 0 :=
    calculateDistance_self c.lat c.lng
  by_cases hr : 0 < calculateDistance c.lat c.lng p.lat p.lng
  · refine ⟨fun _ => ?_, fun hn => absurd hr hn, fun hpc => ?_, ?_, ?_, ?_⟩
    · simp only [handleClick]
      rw [if_pos hr]
    · exfalso
      cases hpc
      rw [hself] at hr
      exact lt_irrefl 0 hr
    all_goals
      simp only [handleClick]
      rw [if_pos hr]
      try simp [handleSetDrawingMode, clearTempEffect, handleNewObject]
  · refine ⟨fun hpos => absurd hpos hr, fun _ => ?_, fun hpc => ?_, ?_, ?_, ?_⟩
    all_goals
      simp only [handleClick]
      rw [if_neg hr]
      try simp [handleSetDrawingMode, clearTempEffect, handleNewObject]

/-- C3 witness: a second click on the exact center creates no record and
resets the circle-drawing state. -/
theorem second_click_finalizes_circle_witness :
    ((0 < calculateDistance 0 0 0 0 →
        (handleClick "u1" "1" { lat := 0, lng := 0 } circleDraftState).2 =
          [newCircleObj "u1" "1" { lat := 0, lng := 0 } (calculateDistance 0 0 0 0)]) ∧
     (¬0 < calculateDistance 0 0 0 0 →
        (handleClick "u1" "1" { lat := 0, lng := 0 } circleDraftState).2 = []) ∧
     (({ lat := 0, lng := 0 } : LatLng) = { lat := 0, lng := 0 } →
        (handleClick "u1" "1" { lat := 0, lng := 0 } circleDraftState).2 = []) ∧
     (handleClick "u1" "1" { lat := 0, lng := 0 } circleDraftState).1.circleCenter =
       Option.none ∧
     (handleClick "u1" "1" { lat := 0, lng := 0 } circleDraftState).1.dragPoint =
       Option.none ∧
     (handleClick "u1" "1" { lat := 0, lng := 0 } circleDraftState).1.drawingMode =
       DrawingMode.none) :=
  second_click_finalizes_circle "u1" "1" { lat := 0, lng := 0 } { lat := 0, lng := 0 }
    circleDraftState rfl rfl

/-- C9: deleting the object the selection points at removes every record
with that id from the collection and clears the selection in the same
step, so the resulting selection cannot reference an id absent from the
collection. -/
theorem delete_selected_object_clears_selection (i : String) (s : MapState)
    (h : s.selectedObjectId = some i) :
    (∀ o ∈ (deleteObject i s).1.objects, o.id ≠ i) ∧
    (deleteObject i s).1.selectedObjectId = Option.none := by
  constructor
  · have hobj : (deleteObject i s).1.objects = s.objects.filter (fun o => o.id != i) := by
      simp only [deleteObject]
      split <;> rfl
    intro o ho
    rw [hobj] at ho
    have hpo := (List.mem_filter.mp ho).2
    simpa using hpo
  · simp [deleteObject, h]

/-- C9 witness: deleting the selected point of `selectedPointState`. -/
theorem delete_selected_object_clears_selection_witness :
    (∀ o ∈ (deleteObject "a" selectedPointState).1.objects, o.id ≠ "a") ∧
    (deleteObject "a" selectedPointState).1.selectedObjectId = Option.none :=
  delete_selected_object_clears_selection "a" selectedPointState rfl

/-- C6: updating object `i` with a partial field set is a strict no-op
(state unchanged, no persistence callback) when no record has id `i`;
when a record with id `i` is found, every record with that id is replaced
by the merge in which exactly the supplied fields are overwritten and all
others keep the target's values, records with other ids are untouched,
and the merged record is handed to the persistence callback once. -/
theorem object_update_merges_or_rejects (i : String) (u : ObjectPatch) (s : MapState) :
    ((∀ o ∈ s.objects, o.id ≠ i) → handleObjectUpdate i u s = (s, [])) ∧
    (∀ target, s.objects.find? (fun o => o.id == i) = some target →
       handleObjectUpdate i u s =
         ({ s with objects := s.objects.map fun o => if o.id == i then spread target u else o },
          [spread target u]) ∧
       (spread target u).id = (u.id.getD target.id) ∧
       (spread target u).layerId = (u.layerId.getD target.layerId) ∧
       (spread target u).type = (u.type.getD target.type) ∧
       (spread target u).title = (u.title.getD target.title) ∧
       (spread target u).description = (u.description.getD target.description) ∧
       (u.position = Option.none → (spread target u).position = target.position) ∧
       (∀ v, u.position = some v → (spread target u).position = some v) ∧
       (u.center = Option.none → (spread target u).center = target.center) ∧
       (∀ v, u.center = some v → (spread target u).center = some v) ∧
       (u.radius = Option.none → (spread target u).radius = target.radius) ∧
       (∀ v, u.radius = some v → (spread target u).radius = some v) ∧
       (u.positions = Option.none → (spread target u).positions = target.positions) ∧
       (∀ v, u.positions = some v → (spread target u).positions = some v) ∧
       (∀ o ∈ s.objects, o.id ≠ i → o ∈ (handleObjectUpdate i u s).1.objects)) := by
  constructor
  · intro h
    have hf : s.objects.find? (fun o => o.id == i) = Option.none := by
      rw [List.find?_eq_none]
      intro o ho
      simpa using h o ho
    simp [handleObjectUpdate, hf]
  · intro target ht
    refine ⟨by simp [handleObjectUpdate, ht], rfl, rfl, rfl, rfl, rfl,
      fun hp => by simp [spread, hp], fun v hp => by simp [spread, hp],
      fun hp => by simp [spread, hp], fun v hp => by simp [spread, hp],
      fun hp => by simp [spread, hp], fun v hp => by simp [spread, hp],
      fun hp => by simp [spread, hp], fun v hp => by simp [spread, hp],
      ?_⟩
    intro o ho hne
    simp only [handleObjectUpdate, ht]
    refine List.mem_map.mpr ⟨o, ho, ?_⟩
    simp [hne]

/-- C10: with one or fewer layers, `handleDeleteLayer` changes neither
the layer list nor the object collection (and makes no persistence call);
otherwise it removes exactly the layers whose id is `i` and exactly the
objects whose `layerId` is `i`, leaving every other layer and object in
place. -/
theorem delete_layer_removes_layer_and_its_objects (user : Bool) (i : String) (s : AppState) :
    ((s.layers.length ≤ 1 → handleDeleteLayer user i s = some (s, [])) ∧
     (∀ s' calls, handleDeleteLayer user i s = some (s', calls) → 2 ≤ s.layers.length →
        s'.objects = s.objects.filter (fun o => o.layerId != i) ∧
        s'.layers = s.layers.filter (fun l => l.id != i) ∧
        (∀ o ∈ s.objects, o.layerId ≠ i → o ∈ s'.objects) ∧
        (∀ o ∈ s'.objects, o ∈ s.objects ∧ o.layerId ≠ i) ∧
        (∀ l ∈ s.layers, l.id ≠ i → l ∈ s'.layers) ∧
        (∀ l ∈ s'.layers, l ∈ s.layers ∧ l.id ≠ i))) := by
  constructor
  · intro h
    simp [handleDeleteLayer, h]
  · intro s' calls heq hlen
    have hgt : ¬s.layers.length ≤ 1 := by omega
    simp only [handleDeleteLayer, if_neg hgt] at heq
    have hs' : s'.objects = s.objects.filter (fun o => o.layerId != i) ∧
        s'.layers = s.layers.filter (fun l => l.id != i) := by
      rcases hif : (if s.activeLayerId = i then
          ((s.layers.filter (fun l => l.id != i)).head?).map Layer.id
        else some s.activeLayerId) with _ | a <;>
        rw [hif] at heq
      · exact Option.noConfusion heq
      · have h12 := Option.some.inj heq
        have h1 := congrArg Prod.fst h12
        exact ⟨(congrArg AppState.objects h1).symm, (congrArg AppState.layers h1).symm⟩
    obtain ⟨ho, hl⟩ := hs'
    refine ⟨ho, hl, ?_, ?_, ?_, ?_⟩
    · intro o hmem hne
      rw [ho]
      exact List.mem_filter.mpr ⟨hmem, by simpa using hne⟩
    · intro o hmem
      rw [ho] at hmem
      have := List.mem_filter.mp hmem
      exact ⟨this.1, by simpa using this.2⟩
    · intro l hmem hne
      rw [hl]
      exact List.mem_filter.mpr ⟨hmem, by simpa using hne⟩
    · intro l hmem
      rw [hl] at hmem
      have := List.mem_filter.mp hmem
      exact ⟨this.1, by simpa using this.2⟩

/-- Helper: on a non-null document the load body is the truthiness check
followed by returning the two raw property values. -/
theorem loadProjectChecked_ne_null (j : JValue) (h : j ≠ JValue.null) :
    loadProjectChecked j =
      if truthy (getField j "layers") = false ∨ truthy (getField j "objects") = false then
        Except.error "Invalid project file format"
      else Except.ok (getField j "layers", getField j "objects") := by
  cases j <;> first | (exact absurd rfl h) | rfl

/-- C4 (amended): the load path rejects with "Invalid project file
format" exactly when the `layers` or `objects` property of the parsed
document is missing or falsy; it does not check that they are arrays —
any two truthy values are accepted and returned as-is.  (`loadProjectChecked`
is a pure function of the document, so no state is mutated either way.) -/
theorem load_project_checks_truthiness_only (j : JValue) :
    (((∃ a b, loadProjectChecked j = Except.ok (a, b)) ↔
       j ≠ JValue.null ∧ truthy (getField j "layers") = true ∧
         truthy (getField j "objects") = true) ∧
     (j ≠ JValue.null →
       truthy (getField j "layers") = true → truthy (getField j "objects") = true →
       loadProjectChecked j = Except.ok (getField j "layers", getField j "objects")) ∧
     (j ≠ JValue.null →
       (truthy (getField j "layers") = false ∨ truthy (getField j "objects") = false) →
       loadProjectChecked j = Except.error "Invalid project file format")) := by
  refine ⟨⟨?_, ?_⟩, ?_, ?_⟩
  · rintro ⟨a, b, hab⟩
    by_cases hnull : j = JValue.null
    · subst hnull
      exact Except.noConfusion hab
    · rw [loadProjectChecked_ne_null j hnull] at hab
      refine ⟨hnull, ?_, ?_⟩ <;>
        by_cases h1 : truthy (getField j "layers") = true <;>
        by_cases h2 : truthy (getField j "objects") = true <;>
        simp_all
  · rintro ⟨hnull, h1, h2⟩
    exact ⟨getField j "layers", getField j "objects", by
      rw [loadProjectChecked_ne_null j hnull]
      simp [h1, h2]⟩
  · intro hnull h1 h2
    rw [loadProjectChecked_ne_null j hnull]
    simp [h1, h2]
  · intro hnull h12
    rw [loadProjectChecked_ne_null j hnull]
    rcases h12 with h | h <;> simp [h]

/-- C4 counterexample: a document whose `layers` and `objects` keys hold
the number 1 — present but not array-typed — is accepted by the load path
(the claim requires it to be rejected). -/
theorem load_project_accepts_nonarray_keys :
    loadProjectChecked badProject = Except.ok (JValue.num 1, JValue.num 1) ∧
    isArray (getField badProject "layers") = false ∧
    isArray (getField badProject "objects") = false := by
  have h1 : getField badProject "layers" = JValue.num 1 := by
    simp [badProject, getField, lookupField]
  have h2 : getField badProject "objects" = JValue.num 1 := by
    simp [badProject, getField, lookupField]
  have ht : truthy (JValue.num 1) = true := by
    simp [truthy]
  refine ⟨?_, by rw [h1]; rfl, by rw [h2]; rfl⟩
  rw [loadProjectChecked_ne_null badProject (fun h => nomatch h), h1, h2, ht]
  simp

/-- Helper: decoding inverts the coordinate encoding. -/
theorem decodeLatLng_encode (p : LatLng) : decodeLatLng (encodeLatLng p) = some p := by
  simp [decodeLatLng, encodeLatLng, lookupField]

/-- Helper: decoding inverts the coordinate-list encoding. -/
theorem decodeLatLngList_encode (ps : List LatLng) :
    decodeLatLngList (ps.map encodeLatLng) = some ps := by
  induction ps with
  | nil => rfl
  | cons p t ih => simp [decodeLatLngList, decodeLatLng_encode, ih]

/-- Helper: decoding inverts the shape-tag encoding. -/
theorem decodeShapeType_toStr (st : ShapeType) : decodeShapeType st.toStr = some st := by
  cases st <;> rfl

/-- Helper: decoding inverts the style encoding. -/
theorem decodeStyle_encode (st : LayerStyle) : decodeStyle (encodeStyle st) = some st := by
  simp [decodeStyle, encodeStyle, getField, lookupField]

/-- Helper: decoding inverts the layer encoding. -/
theorem decodeLayer_encode (l : Layer) : decodeLayer (encodeLayer l) = some l := by
  simp [decodeLayer, encodeLayer, getField, lookupField, decodeStyle_encode]

/-- Helper: decoding inverts the record encoding. -/
theorem decodeObject_encode (o : MapObject) : decodeObject (encodeObject o) = some o := by
  obtain ⟨i, li, ty, t, d, pos, cen, rad, poss⟩ := o
  cases pos <;> cases cen <;> cases rad <;> cases poss <;>
    simp [decodeObject, encodeObject, encodeLatLng, getField, lookupField, optField,
      decodeOpt, isUndef, decodeShapeType_toStr, decodeLatLng, decodeLatLng_encode,
      decodeLatLngList_encode]

/-- C5: a saved project document, fed back into the load path, is
accepted and yields exactly the serialized forms of the original layer
and object lists (what deep-equality of JavaScript values compares), and
the serialization is lossless: decoding recovers the original layers and
objects field for field. -/
theorem save_load_project_round_trip (t : ℝ) (layers : List Layer) (objects : List MapObject) :
    (loadProjectChecked (saveProjectToFile t layers objects) =
       Except.ok (JValue.arr (layers.map encodeLayer), JValue.arr (objects.map encodeObject)) ∧
     (∀ l, decodeLayer (encodeLayer l) = some l) ∧
     (∀ o, decodeObject (encodeObject o) = some o)) := by
  refine ⟨?_, decodeLayer_encode, decodeObject_encode⟩
  have hL : getField (saveProjectToFile t layers objects) "layers" =
      JValue.arr (layers.map encodeLayer) := by
    simp [saveProjectToFile, getField, lookupField]
  have hO : getField (saveProjectToFile t layers objects) "objects" =
      JValue.arr (objects.map encodeObject) := by
    simp [saveProjectToFile, getField, lookupField]
  rw [loadProjectChecked_ne_null _ (by simp [saveProjectToFile]), hL, hO]
  simp [truthy]

/-- C8 (amended): the radius edit commits exactly when `parseFloat` of
the input is a value greater than 0 — NaN, zero and negative inputs are
ignored and the prior radius kept — but finiteness is not validated: a
positive non-finite parse (the literal `Infinity`) is committed too. -/
theorem radius_edit_commits_iff_parse_positive (prior : JSNum) (s : String) :
    RadiusInput.radiusAfterChange prior s =
      if (parseFloat s).isNaN = false ∧ (parseFloat s).isPos = true then parseFloat s
      else prior := by
  unfold RadiusInput.radiusAfterChange RadiusInput.handleChange
  by_cases h : (parseFloat s).isNaN = false ∧ (parseFloat s).isPos = true <;> simp [h]

/-- C8 counterexample: the non-finite input string "Infinity" parses to
Infinity, passes the guard, and replaces the prior radius — the claim
requires every non-finite input to be ignored. -/
theorem radius_edit_accepts_infinity :
    RadiusInput.radiusAfterChange (JSNum.val 500) "Infinity" = JSNum.inf ∧
    JSNum.inf ≠ JSNum.val 500 := by
  decide

end GeoMapper
